import Mathlib

/-!
# Verification of the ERMIA MVCC core

A shallow embedding of the multi-version concurrency-control core of the
repository: the version-chain visibility walk (`fetch_version`), the
update-install decision (`update_version`), the SSN read path
(`do_tuple_read`), the SSN commit validation (`ssn_parallel_si_commit`),
transaction abort (`abort_impl`), the object-vector head operations
(`put` / `unlink`), and the per-core OID allocator (`alloc`).

Concurrency is modelled by a settled snapshot: every racing read that the
C++ code resolves through its owner-check/retry pattern is given here as
the consistent value the retry loop eventually observes, and the points
where a compare-and-swap may observe interference are exposed as explicit
`slot_now` inputs.  Machine integers are `Nat`/`Int`; the only place where
unsigned wraparound matters (the OID allocator's `uint64` decrements)
uses explicit arithmetic modulo `2^64`.
-/

set_option autoImplicit false

namespace Ermia

/-- Transaction states, from `enum txn_state` in txn.h:
`TXN_EMBRYO, TXN_ACTIVE, TXN_COMMITTING, TXN_CMMTD, TXN_ABRTD`. -/
inductive TxnState
  | embryo | active | committing | cmmtd | abrtd
deriving DecidableEq, Repr

/-- LSN offsets are monotone 64-bit log offsets; we use `Nat`.
`INVALID_LSN` has offset 0. -/
abbrev LSN := Nat

/-- The reserved sentinel LSN (offset 0). -/
def INVALID_LSN : LSN := 0

/-- Transaction identifiers; slot index plus generation packed in `_val`.
We model the packed word as a `Nat`.  `0` is the invalid XID. -/
abbrev XID := Nat

/-- The `clsn` field of a version: a fat pointer whose type tag is either
`ASI_LOG` (committed, payload is the commit LSN offset) or `ASI_XID`
(in-flight, payload is the creator's XID). -/
inductive Clsn
  | log (lsn : Nat)
  | xid (x : XID)
deriving DecidableEq, Repr

/-- The `struct xid_context` from txn.h: owner XID, begin/end LSNs, the SSN
predecessor/successor stamps, and the state.  (`end` is a Lean keyword,
hence the trailing underscores.) -/
structure XidContext where
  owner : XID
  begin_ : LSN
  end_ : LSN
  pstamp : Nat
  sstamp : Nat
  state : TxnState
deriving DecidableEq, Repr

/-- A version record (`dbtuple`): creator stamp `clsn`, successor stamp
`sstamp` (0 = no overwriter yet), reader stamp `xstamp`, and an identity
`id` standing for the tuple's address (distinguishes physical tuples). -/
structure Dbtuple where
  clsn : Clsn
  sstamp : Nat
  xstamp : Nat
  id : Nat
deriving DecidableEq, Repr

/-- Lookup `xid_get_context`: the context table as a partial map from XIDs to
contexts.  `none` models "not currently associated with a context". -/
abbrev XidEnv := XID → Option XidContext

/-- Constant `OLD_VERSION_THRESHOLD` from txn_impl.h (`0xffffffffll`): versions
whose LSN delta from the reader's begin is at least this are "old". -/
def OLD_VERSION_THRESHOLD : Int := 0xffffffff

/-! ## fetch_version (masstree.hh): chain-walk visibility

The walk examines versions newest-to-oldest.  Each step either returns
the version, skips to the next, or restarts because the holder's context
was recycled mid-read (`goto start_over`); in a settled snapshot the
restart case cannot make progress, so the whole walk reports `none`.
Build configuration: `USE_PARALLEL_SSN` defined, `USE_READ_COMMITTED`
and `READ_COMMITTED_SPIN` not defined (the SSN build). -/

/-- Outcome of examining one version during `fetch_version`. -/
inductive FetchStep
  | ret | skip | retry
deriving DecidableEq, Repr

/-- One step of the `fetch_version` loop body, from masstree.hh:
* `ASI_XID` equal to the visitor's own XID: `goto out` (return);
* `ASI_XID` other: fetch the holder context (missing context or owner
  mismatch restarts the walk); if `state != TXN_CMMTD` continue; if
  `end > visitor begin` or `end == INVALID_LSN` continue; else return;
* `ASI_LOG`: continue iff `clsn > visitor begin`, else return. -/
def fetch_step (env : XidEnv) (visitor_xc : XidContext) (version : Dbtuple) :
    FetchStep :=
  match version.clsn with
  | .xid holder_xid =>
    if holder_xid = visitor_xc.owner then
      .ret
    else
      match env holder_xid with
      | none => .retry
      | some holder =>
        if holder.owner ≠ holder_xid then
          .retry
        else if holder.state ≠ TxnState.cmmtd then
          .skip
        else if holder.end_ > visitor_xc.begin_ ∨ holder.end_ = INVALID_LSN then
          .skip
        else
          .ret
  | .log lsn => if lsn > visitor_xc.begin_ then .skip else .ret

/-- Walk `fetch_version` over a chain (newest first).  `some (some v)` means
version `v` was returned, `some none` means "no visible records"
(the C++ returns 0), and `none` means the walk hit `goto start_over`,
which in a settled snapshot cannot resolve. -/
def fetch_version (env : XidEnv) (visitor_xc : XidContext) :
    List Dbtuple → Option (Option Dbtuple)
  | [] => some none
  | v :: rest =>
    match fetch_step env visitor_xc v with
    | .ret => some (some v)
    | .skip => fetch_version env visitor_xc rest
    | .retry => none

/-- Visibility predicate written from the claim's words (refinement side):
a `LOG` version is visible iff its LSN is at most the visitor's begin; a
version carrying the visitor's own XID is visible; a version carrying
another XID is visible iff its holder has state `CMMTD` and neither
`end > begin` nor `end = INVALID_LSN`. -/
def spec_visible (env : XidEnv) (visitor_xc : XidContext) (version : Dbtuple) :
    Bool :=
  match version.clsn with
  | .log lsn => lsn ≤ visitor_xc.begin_
  | .xid holder_xid =>
    if holder_xid = visitor_xc.owner then
      true
    else
      match env holder_xid with
      | none => false
      | some holder =>
        holder.owner = holder_xid ∧ holder.state = TxnState.cmmtd ∧
          ¬(holder.end_ > visitor_xc.begin_ ∨ holder.end_ = INVALID_LSN)

/-- On a settled version (no retry), the step returns the version iff it
is `spec_visible`. -/
theorem fetch_step_ret_iff (env : XidEnv) (xc : XidContext) (v : Dbtuple)
    (hsettle : fetch_step env xc v ≠ FetchStep.retry) :
    fetch_step env xc v = FetchStep.ret ↔ spec_visible env xc v = true := by
  rcases v with ⟨clsn, s, x, i⟩
  cases clsn with
  | log lsn =>
    dsimp only [fetch_step, spec_visible]
    by_cases h : lsn > xc.begin_
    · simp [h, Nat.not_le.mpr h]
    · simp [h, Nat.not_lt.mp h]
  | xid hx =>
    dsimp only [fetch_step, spec_visible] at hsettle ⊢
    by_cases hown : hx = xc.owner
    · simp [hown]
    · simp only [if_neg hown] at hsettle ⊢
      cases henv : env hx with
      | none =>
        simp only [henv] at hsettle
        exact absurd rfl hsettle
      | some holder =>
        simp only [henv] at hsettle
        dsimp only
        by_cases h1 : holder.owner ≠ hx
        · rw [if_pos h1] at hsettle
          exact absurd rfl hsettle
        · rw [if_neg h1] at hsettle ⊢
          push_neg at h1
          by_cases h2 : holder.state ≠ TxnState.cmmtd
          · simp [h2]
          · push_neg at h2
            by_cases h3 : holder.end_ > xc.begin_ ∨ holder.end_ = INVALID_LSN
            · simp [h2, h3]
            · simp [h1, h2, h3]

/-- The step never skips a `spec_visible` version. -/
theorem fetch_step_skip_not_visible (env : XidEnv) (xc : XidContext)
    (v : Dbtuple) (hs : fetch_step env xc v = FetchStep.skip) :
    spec_visible env xc v = false := by
  have hsettle : fetch_step env xc v ≠ FetchStep.retry := by simp [hs]
  have := fetch_step_ret_iff env xc v hsettle
  cases hv : spec_visible env xc v
  · rfl
  · exact absurd (this.mpr hv) (by simp [hs])

/-- C2.  For every chain traversal by `fetch_version` on behalf of a
visitor transaction, walking newest-to-oldest, provided every context
read settles (no `start_over`): the version returned is exactly the
first version of the chain that is visible in the claim's sense — a
`LOG`-tagged version is visible iff its LSN is ≤ the visitor's begin, a
version tagged with the visitor's own XID is visible (read-own-writes),
and a version tagged with another XID is skipped when its holder's state
is not `CMMTD` or when `end > begin` or `end = INVALID_LSN`, and
returned otherwise. -/
theorem fetch_version_first_visible (env : XidEnv) (xc : XidContext)
    (chain : List Dbtuple)
    (hsettle : ∀ v ∈ chain, fetch_step env xc v ≠ FetchStep.retry) :
    fetch_version env xc chain = some (chain.find? (spec_visible env xc)) := by
  induction chain with
  | nil => rfl
  | cons v rest ih =>
    have hv : fetch_step env xc v ≠ FetchStep.retry :=
      hsettle v (List.mem_cons_self v rest)
    have hrest : ∀ w ∈ rest, fetch_step env xc w ≠ FetchStep.retry :=
      fun w hw => hsettle w (List.mem_cons_of_mem v hw)
    unfold fetch_version
    cases hstep : fetch_step env xc v with
    | ret =>
      have hvis := (fetch_step_ret_iff env xc v hv).mp hstep
      simp [List.find?, hvis]
    | skip =>
      have hvis := fetch_step_skip_not_visible env xc v hstep
      simp [List.find?, hvis, ih hrest]
    | retry => exact absurd hstep hv

/-- Witness for C2 at a concrete chain: an in-flight version of another
active transaction is skipped and the committed version below it is
returned. -/
theorem fetch_version_first_visible_witness :
    fetch_version
      (fun x => if x = 5 then
          some ⟨5, 90, 0, 0, 0, TxnState.active⟩ else none)
      ⟨7, 100, 0, 0, 0, TxnState.active⟩
      [⟨Clsn.xid 5, 0, 0, 11⟩, ⟨Clsn.log 60, 0, 0, 12⟩] =
      some (List.find?
        (spec_visible
          (fun x => if x = 5 then
              some ⟨5, 90, 0, 0, 0, TxnState.active⟩ else none)
          ⟨7, 100, 0, 0, 0, TxnState.active⟩)
        [⟨Clsn.xid 5, 0, 0, 11⟩, ⟨Clsn.log 60, 0, 0, 12⟩]) :=
  fetch_version_first_visible _ _ _ (by decide)

/-! ## Object-vector head operations (object.h)

The version-chain head slot for an OID holds a packed `fat_ptr` word; we
model the word as a `Nat` (0 = empty slot).  Each operation reads the
slot, then attempts a compare-and-swap; the slot's content at CAS time is
the explicit `slot_now` input, so a concurrent change between the read
and the CAS is expressible. -/

/-- Insert form `object_vector::put(oid, new_head)` (object.h:49):
CAS the slot from 0 to `new_head`; returns whether the CAS succeeded and
the resulting slot content. -/
def ov_put_insert (slot_now new_head : Nat) : Bool × Nat :=
  if slot_now = 0 then (true, new_head) else (false, slot_now)

/-- Function `try_insert_new_tuple` (txn_impl.h): allocate an OID, `put` the new
head by CAS-from-0 — on failure return false (the caller falls back to
the normal update procedure) — then `insert_if_absent` into the index —
on failure unlink the freshly installed head and return false.  The log
append and write-set bookkeeping on success are external to the claims
checked here. -/
def try_insert_new_tuple (slot_now new_head : Nat) (index_ok : Bool) :
    Bool :=
  if (ov_put_insert slot_now new_head).1 = false then false
  else if index_ok = false then false
  else true

/-- Result of `object_vector::unlink`: either the slot was CASed from the
head to `head._next`, or the `ALWAYS_ASSERT` around the CAS failed,
which kills the process. -/
inductive UnlinkResult
  | ok (new_slot : Nat)
  | fatal
deriving DecidableEq, Repr

/-- Operation `object_vector::unlink(oid, item)` (object.h:96): read the head,
then `ALWAYS_ASSERT(CAS(slot, head, head->_next))` — a CAS that fails
(because the slot changed after the read) is a fatal assertion, not an
error returned to the caller.  `head_ptr` is the head as read,
`slot_now` the slot at CAS time, `next_ptr` the head's `_next`. -/
def unlink (head_ptr slot_now next_ptr : Nat) : UnlinkResult :=
  if slot_now = head_ptr then .ok next_ptr else .fatal

/-! ## update_version (masstree.hh lines 106-216)

The updater reads the chain head, examines its `clsn`, and decides: a
`LOG` head installs iff `head.clsn ≤ begin`; an `XID` head consults the
holder's context (recycled context restarts).  On the install path the
non-overwrite form CASes the slot from the head read at `start_over`
(`slot_now` is the slot at CAS time), while the self-overwrite form is a
plain owner-exclusive write that cannot fail.  On success the function
returns the overwritten head version; on conflict or CAS failure it
returns NULL. -/

/-- Result of `update_version`: `installed overwritten in_place` models a
successful install returning the overwritten head (`in_place` = the
self-overwrite collapse), `wwConflict` models returning NULL, and
`retry` models `goto start_over` on a recycled context. -/
inductive UpdateResult
  | installed (overwritten : Dbtuple) (in_place : Bool)
  | wwConflict
  | retry
deriving DecidableEq, Repr

/-- Function `basic_table::update_version(oid, new_desc, updater_xc)`. -/
def update_version (env : XidEnv) (updater_xc : XidContext) (head : Dbtuple)
    (slot_now : Option Dbtuple) : UpdateResult :=
  match head.clsn with
  | .xid holder_xid =>
    match env holder_xid with
    | none => .retry
    | some holder =>
      if holder.owner ≠ holder_xid then .retry
      else
        match holder.state with
        | .cmmtd =>
          if slot_now = some head then .installed head false else .wwConflict
        | .committing => .wwConflict
        | .abrtd => .wwConflict
        | .embryo | .active =>
          if holder_xid = updater_xc.owner then .installed head true
          else .wwConflict
  | .log lsn =>
    if lsn > updater_xc.begin_ then .wwConflict
    else if slot_now = some head then .installed head false else .wwConflict

/-- C3.  `update_version`'s outcome is decided by the current chain head
(in the no-interference case `slot_now = some head`): a `LOG`-tagged
head installs iff `head.clsn ≤ begin` and otherwise yields NULL
(write-write conflict); an `XID`-tagged head with a settled holder
context installs when the holder is `CMMTD`, yields NULL when the holder
is `COMMITTING` or `ABRTD`, or `EMBRYO`/`ACTIVE` and not the updater
itself, and performs the in-place self-overwrite install when the holder
XID is the updater's own. -/
theorem update_version_outcomes (env : XidEnv) (updater_xc : XidContext)
    (head : Dbtuple) (slot_now : Option Dbtuple)
    (hslot : slot_now = some head) :
    (∀ lsn, head.clsn = Clsn.log lsn →
      ((update_version env updater_xc head slot_now =
          UpdateResult.installed head false) ↔ lsn ≤ updater_xc.begin_) ∧
      (lsn > updater_xc.begin_ →
        update_version env updater_xc head slot_now =
          UpdateResult.wwConflict)) ∧
    (∀ holder_xid holder, head.clsn = Clsn.xid holder_xid →
      env holder_xid = some holder → holder.owner = holder_xid →
      ((holder.state = TxnState.cmmtd →
        update_version env updater_xc head slot_now =
          UpdateResult.installed head false) ∧
       (holder.state = TxnState.committing ∨ holder.state = TxnState.abrtd →
        update_version env updater_xc head slot_now =
          UpdateResult.wwConflict) ∧
       ((holder.state = TxnState.embryo ∨ holder.state = TxnState.active) →
        holder_xid ≠ updater_xc.owner →
        update_version env updater_xc head slot_now =
          UpdateResult.wwConflict) ∧
       ((holder.state = TxnState.embryo ∨ holder.state = TxnState.active) →
        holder_xid = updater_xc.owner →
        update_version env updater_xc head slot_now =
          UpdateResult.installed head true))) := by
  subst hslot
  constructor
  · intro lsn hlog
    unfold update_version
    rw [hlog]
    dsimp only
    constructor
    · by_cases h : lsn > updater_xc.begin_
      · simp [h, Nat.not_le.mpr h]
      · simp [h, Nat.not_lt.mp h]
    · intro h
      simp [h]
  · intro holder_xid holder hxid henv howner
    unfold update_version
    rw [hxid]
    obtain ⟨ho, hb, he, hp, hs, hstate⟩ := holder
    dsimp only at howner
    subst howner
    simp only [henv]
    cases hstate <;> simp_all

/-- Witness for C3: a committed `LOG` head with `clsn = 50 ≤ begin = 100`
installs and returns the overwritten head. -/
theorem update_version_outcomes_witness :
    update_version (fun _ => none) ⟨7, 100, 0, 0, 0, TxnState.active⟩
      ⟨Clsn.log 50, 0, 0, 21⟩ (some ⟨Clsn.log 50, 0, 0, 21⟩) =
      UpdateResult.installed ⟨Clsn.log 50, 0, 0, 21⟩ false :=
  ((update_version_outcomes (fun _ => none) ⟨7, 100, 0, 0, 0, TxnState.active⟩
      ⟨Clsn.log 50, 0, 0, 21⟩ (some ⟨Clsn.log 50, 0, 0, 21⟩) rfl).1 50
      rfl).1.mpr (by decide)

/-! ## C8: behavior of each head-slot CAS on failure -/

/-- C8 counterexample.  The claim says a failed head-unlink CAS returns
control to the caller; in `object_vector::unlink` the CAS is wrapped in
`ALWAYS_ASSERT`, so at a concrete interfered state (head read as 1, slot
now 2) the operation is fatal. -/
theorem unlink_cas_failure_fatal :
    unlink 1 2 0 = UnlinkResult.fatal ∧ (2 : Nat) ≠ 1 := by
  constructor
  · rfl
  · decide

/-- C8 amended.  A failed CAS in the insert install returns false to the
caller and a failed CAS in the update install returns NULL (write-write
conflict) to the caller; only the head-unlink CAS is a fatal assertion
rather than a recoverable failure. -/
theorem cas_failure_policy (slot_now new_head head_ptr next_ptr : Nat)
    (index_ok : Bool) (env : XidEnv) (updater_xc : XidContext)
    (head : Dbtuple) (stale_slot : Option Dbtuple) (lsn : Nat)
    (hins : slot_now ≠ 0)
    (hupd : head.clsn = Clsn.log lsn) (hlsn : lsn ≤ updater_xc.begin_)
    (hstale : stale_slot ≠ some head)
    (hun : slot_now ≠ head_ptr) :
    try_insert_new_tuple slot_now new_head index_ok = false ∧
    update_version env updater_xc head stale_slot =
      UpdateResult.wwConflict ∧
    unlink head_ptr slot_now next_ptr = UnlinkResult.fatal := by
  refine ⟨?_, ?_, ?_⟩
  · unfold try_insert_new_tuple ov_put_insert
    simp [hins]
  · unfold update_version
    rw [hupd]
    dsimp only
    rw [if_neg (show ¬lsn > updater_xc.begin_ by omega), if_neg hstale]
  · unfold unlink
    rw [if_neg hun]

/-! ## do_tuple_read (txn_impl.h lines 475-537): SSN read path -/

/-- Abort reasons surfaced by the transaction core (txn.h enum). -/
inductive AbortReason
  | internal | unstableRead | wwConflict | ssnExclusionFailure | user
deriving DecidableEq, Repr

/-- Enum `dbtuple::ReadStatus` returned by `stable_read`. -/
inductive ReadStatus
  | READ_FAILED | READ_EMPTY | READ_RECORD
deriving DecidableEq, Repr

/-- A read-set entry: the tuple read (by identity) and its OID. -/
structure ReadRec where
  tupleId : Nat
  oid : Nat
deriving DecidableEq, Repr

/-- Modelled from the spec: `ssn_check_exclusion` is declared by the SSN
layer but its body is not among the sources; the spec states "Abort iff
`pstamp ≥ sstamp`" and "commit requires `pstamp < sstamp`", so the check
passes iff `pstamp < sstamp`. -/
def ssn_check_exclusion (xc : XidContext) : Bool :=
  xc.pstamp < xc.sstamp

/-- How a call to `do_tuple_read` ended: found a record, found a
logically deleted record (returns false), or threw an abort. -/
inductive ReadRet
  | found | empty | aborted (reason : AbortReason)
deriving DecidableEq, Repr

/-- Result of `do_tuple_read`: the outcome, the transaction context and
read set after the call (the C++ mutates them in place before any
abort is thrown), and whether reader-list registration was attempted. -/
structure ReadResult where
  ret : ReadRet
  xc : XidContext
  read_set : List ReadRec
  regAttempted : Bool
deriving DecidableEq, Repr

/-- Function `transaction::do_tuple_read(btr, oid, tuple, value_reader)` under
`USE_PARALLEL_SSN`.  Inputs beyond the source arguments: `do_early`
stands for the `DO_EARLY_SSN_CHECKS` build flag, `stat` for the value
returned by `stable_read`, and `reg_ok` for the outcome of the external
`ssn_register_reader_tx` (capacity-bounded; not among the sources).
After the stable read, SSN stamping applies only when `tuple->clsn` is
`ASI_LOG` and the version's age `begin - clsn` is below
`OLD_VERSION_THRESHOLD`: raise `pstamp` to the version's `clsn`; then if
`tuple->sstamp` is zero attempt reader registration and append to the
read set only on success, else lower `sstamp` to `tuple->sstamp`; then
optionally run the early exclusion check. -/
def do_tuple_read (do_early : Bool) (xc : XidContext) (tuple : Dbtuple)
    (oid : Nat) (stat : ReadStatus) (reg_ok : Bool)
    (read_set : List ReadRec) : ReadResult :=
  match stat with
  | .READ_FAILED => ⟨.aborted .unstableRead, xc, read_set, false⟩
  | .READ_EMPTY => ⟨.empty, xc, read_set, false⟩
  | .READ_RECORD =>
    match tuple.clsn with
    | .log v_clsn =>
      let age : Int := (xc.begin_ : Int) - (v_clsn : Int)
      if age < OLD_VERSION_THRESHOLD then
        let xc1 := if xc.pstamp < v_clsn then { xc with pstamp := v_clsn }
                   else xc
        if tuple.sstamp = 0 then
          let rs := if reg_ok then read_set ++ [⟨tuple.id, oid⟩]
                    else read_set
          if do_early ∧ ¬ssn_check_exclusion xc1 then
            ⟨.aborted .ssnExclusionFailure, xc1, rs, true⟩
          else ⟨.found, xc1, rs, true⟩
        else
          let xc2 := if xc1.sstamp > tuple.sstamp
                     then { xc1 with sstamp := tuple.sstamp } else xc1
          if do_early ∧ ¬ssn_check_exclusion xc2 then
            ⟨.aborted .ssnExclusionFailure, xc2, read_set, false⟩
          else ⟨.found, xc2, read_set, false⟩
      else ⟨.found, xc, read_set, false⟩
    | .xid _ => ⟨.found, xc, read_set, false⟩

/-- C4.  Reading a committed (`LOG`) version whose age is below the
old-version threshold: `pstamp` becomes `max(pstamp, clsn)`; if the
version's `sstamp` is zero, reader registration is attempted and on
success the read is appended to the read set (with `sstamp` untouched);
if the version's `sstamp` is non-zero, `sstamp` becomes
`min(sstamp, tuple.sstamp)` and the read set is not appended to. -/
theorem do_tuple_read_young_committed (do_early : Bool) (xc : XidContext)
    (tuple : Dbtuple) (oid : Nat) (reg_ok : Bool) (read_set : List ReadRec)
    (v_clsn : Nat) (hlog : tuple.clsn = Clsn.log v_clsn)
    (hage : (xc.begin_ : Int) - (v_clsn : Int) < OLD_VERSION_THRESHOLD) :
    (do_tuple_read do_early xc tuple oid ReadStatus.READ_RECORD reg_ok
        read_set).xc.pstamp = max xc.pstamp v_clsn ∧
    (tuple.sstamp = 0 →
      (do_tuple_read do_early xc tuple oid ReadStatus.READ_RECORD reg_ok
          read_set).regAttempted = true ∧
      (do_tuple_read do_early xc tuple oid ReadStatus.READ_RECORD reg_ok
          read_set).read_set =
        (if reg_ok then read_set ++ [⟨tuple.id, oid⟩] else read_set) ∧
      (do_tuple_read do_early xc tuple oid ReadStatus.READ_RECORD reg_ok
          read_set).xc.sstamp = xc.sstamp) ∧
    (tuple.sstamp ≠ 0 →
      (do_tuple_read do_early xc tuple oid ReadStatus.READ_RECORD reg_ok
          read_set).xc.sstamp = min xc.sstamp tuple.sstamp ∧
      (do_tuple_read do_early xc tuple oid ReadStatus.READ_RECORD reg_ok
          read_set).read_set = read_set ∧
      (do_tuple_read do_early xc tuple oid ReadStatus.READ_RECORD reg_ok
          read_set).regAttempted = false) := by
  unfold do_tuple_read
  rw [hlog]
  dsimp only
  rw [if_pos hage]
  by_cases hss : tuple.sstamp = 0
  · rw [if_pos hss]
    refine ⟨?_, fun _ => ⟨?_, ?_, ?_⟩, fun h => absurd hss h⟩ <;>
      split_ifs <;> simp_all <;> omega
  · rw [if_neg hss]
    refine ⟨?_, fun h => absurd h hss, fun _ => ⟨?_, ?_, ?_⟩⟩ <;>
      split_ifs <;> simp_all <;> omega

/-- Witness for C4 with a zero-`sstamp` tuple and successful
registration. -/
theorem do_tuple_read_young_committed_witness :
    (do_tuple_read false ⟨7, 100, 0, 5, 1000, TxnState.active⟩
        ⟨Clsn.log 50, 0, 0, 1⟩ 3 ReadStatus.READ_RECORD true []).xc.pstamp =
      max 5 50 ∧
    ((⟨Clsn.log 50, 0, 0, 1⟩ : Dbtuple).sstamp = 0 →
      (do_tuple_read false ⟨7, 100, 0, 5, 1000, TxnState.active⟩
          ⟨Clsn.log 50, 0, 0, 1⟩ 3 ReadStatus.READ_RECORD true
          []).regAttempted = true ∧
      (do_tuple_read false ⟨7, 100, 0, 5, 1000, TxnState.active⟩
          ⟨Clsn.log 50, 0, 0, 1⟩ 3 ReadStatus.READ_RECORD true []).read_set =
        (if true then ([] : List ReadRec) ++ [⟨1, 3⟩] else []) ∧
      (do_tuple_read false ⟨7, 100, 0, 5, 1000, TxnState.active⟩
          ⟨Clsn.log 50, 0, 0, 1⟩ 3 ReadStatus.READ_RECORD true
          []).xc.sstamp = 1000) ∧
    ((⟨Clsn.log 50, 0, 0, 1⟩ : Dbtuple).sstamp ≠ 0 →
      (do_tuple_read false ⟨7, 100, 0, 5, 1000, TxnState.active⟩
          ⟨Clsn.log 50, 0, 0, 1⟩ 3 ReadStatus.READ_RECORD true
          []).xc.sstamp = min 1000 0 ∧
      (do_tuple_read false ⟨7, 100, 0, 5, 1000, TxnState.active⟩
          ⟨Clsn.log 50, 0, 0, 1⟩ 3 ReadStatus.READ_RECORD true
          []).read_set = [] ∧
      (do_tuple_read false ⟨7, 100, 0, 5, 1000, TxnState.active⟩
          ⟨Clsn.log 50, 0, 0, 1⟩ 3 ReadStatus.READ_RECORD true
          []).regAttempted = false) :=
  do_tuple_read_young_committed false ⟨7, 100, 0, 5, 1000, TxnState.active⟩
    ⟨Clsn.log 50, 0, 0, 1⟩ 3 true [] 50 rfl (by decide)

/-- C6.  Reading a committed (`LOG`) version whose age is at least the
old-version threshold leaves the context and read set unchanged,
attempts no registration, and succeeds. -/
theorem do_tuple_read_old_version (do_early : Bool) (xc : XidContext)
    (tuple : Dbtuple) (oid : Nat) (reg_ok : Bool) (read_set : List ReadRec)
    (v_clsn : Nat) (hlog : tuple.clsn = Clsn.log v_clsn)
    (hage : ¬((xc.begin_ : Int) - (v_clsn : Int) < OLD_VERSION_THRESHOLD)) :
    do_tuple_read do_early xc tuple oid ReadStatus.READ_RECORD reg_ok
        read_set = ⟨ReadRet.found, xc, read_set, false⟩ := by
  unfold do_tuple_read
  rw [hlog]
  dsimp only
  rw [if_neg hage]

/-- Witness for C6: age `2^32 - 1` is not below the threshold. -/
theorem do_tuple_read_old_version_witness :
    do_tuple_read false ⟨7, 4294967296, 0, 5, 1000, TxnState.active⟩
        ⟨Clsn.log 1, 0, 0, 1⟩ 3 ReadStatus.READ_RECORD true [] =
      ⟨ReadRet.found, ⟨7, 4294967296, 0, 5, 1000, TxnState.active⟩, [],
        false⟩ :=
  do_tuple_read_old_version false ⟨7, 4294967296, 0, 5, 1000, TxnState.active⟩
    ⟨Clsn.log 1, 0, 0, 1⟩ 3 true [] 1 rfl (by decide)

/-- C9.  A read that returns a version whose `clsn` is still XID-tagged
(in particular the transaction's own in-flight write) leaves the context
and read set unchanged, attempts no registration, and runs no early
exclusion check (it cannot abort with `SSN_EXCLUSION_FAILURE`). -/
theorem do_tuple_read_xid_tagged (do_early : Bool) (xc : XidContext)
    (tuple : Dbtuple) (oid : Nat) (reg_ok : Bool) (read_set : List ReadRec)
    (holder_xid : XID) (hxid : tuple.clsn = Clsn.xid holder_xid) :
    do_tuple_read do_early xc tuple oid ReadStatus.READ_RECORD reg_ok
        read_set = ⟨ReadRet.found, xc, read_set, false⟩ := by
  unfold do_tuple_read
  rw [hxid]

/-- Witness for C9: reading the transaction's own in-flight write. -/
theorem do_tuple_read_xid_tagged_witness :
    do_tuple_read true ⟨7, 100, 0, 5, 1000, TxnState.active⟩
        ⟨Clsn.xid 7, 0, 0, 1⟩ 3 ReadStatus.READ_RECORD true [] =
      ⟨ReadRet.found, ⟨7, 100, 0, 5, 1000, TxnState.active⟩, [], false⟩ :=
  do_tuple_read_xid_tagged true ⟨7, 100, 0, 5, 1000, TxnState.active⟩
    ⟨Clsn.xid 7, 0, 0, 1⟩ 3 true [] 7 rfl

/-- C7 counterexample.  The claim says that when reader-list registration
is attempted and fails, the reader still records the read in its read
set.  At a concrete input (young committed version, `sstamp = 0`,
registration failing) the code attempts registration but leaves the read
set empty. -/
theorem do_tuple_read_reg_failure_drops_read :
    (do_tuple_read false ⟨7, 100, 0, 5, 1000, TxnState.active⟩
        ⟨Clsn.log 50, 0, 0, 1⟩ 3 ReadStatus.READ_RECORD false
        []).regAttempted = true ∧
    (do_tuple_read false ⟨7, 100, 0, 5, 1000, TxnState.active⟩
        ⟨Clsn.log 50, 0, 0, 1⟩ 3 ReadStatus.READ_RECORD false
        []).read_set = [] := by
  constructor <;> rfl

/-- C7 amended.  When reader-list registration is attempted and fails,
the read set is left unchanged: only a successful registration appends
the read. -/
theorem do_tuple_read_reg_failure_no_append (do_early : Bool)
    (xc : XidContext) (tuple : Dbtuple) (oid : Nat)
    (read_set : List ReadRec) (stat : ReadStatus) :
    (do_tuple_read do_early xc tuple oid stat false read_set).read_set =
      read_set := by
  unfold do_tuple_read
  cases stat
  · rfl
  · rfl
  · dsimp only
    cases hclsn : tuple.clsn with
    | log v_clsn =>
      dsimp only
      by_cases hage : ((xc.begin_ : Int) - (v_clsn : Int) <
          OLD_VERSION_THRESHOLD)
      · rw [if_pos hage]
        by_cases hss : tuple.sstamp = 0
        · rw [if_pos hss]
          split_ifs <;> simp_all
        · rw [if_neg hss]
          split_ifs <;> simp_all
      · rw [if_neg hage]
    | xid holder_xid => rfl

/-- Witness for the amended C7. -/
theorem do_tuple_read_reg_failure_no_append_witness :
    (do_tuple_read false ⟨7, 100, 0, 5, 1000, TxnState.active⟩
        ⟨Clsn.log 50, 0, 0, 1⟩ 3 ReadStatus.READ_RECORD false
        [⟨9, 9⟩]).read_set = [⟨9, 9⟩] :=
  do_tuple_read_reg_failure_no_append false
    ⟨7, 100, 0, 5, 1000, TxnState.active⟩ ⟨Clsn.log 50, 0, 0, 1⟩ 3
    [⟨9, 9⟩] ReadStatus.READ_RECORD

/-- Witness for the amended C8 at concrete interfered slots. -/
theorem cas_failure_policy_witness :
    try_insert_new_tuple 3 9 true = false ∧
    update_version (fun _ => none) ⟨7, 100, 0, 0, 0, TxnState.active⟩
      ⟨Clsn.log 50, 0, 0, 21⟩ none = UpdateResult.wwConflict ∧
    unlink 1 2 0 = UnlinkResult.fatal :=
  cas_failure_policy 3 9 1 0 true (fun _ => none)
    ⟨7, 100, 0, 0, 0, TxnState.active⟩ ⟨Clsn.log 50, 0, 0, 21⟩ none 50
    (by decide) rfl (by decide) (by decide) (by decide)

/-! ## ssn_parallel_si_commit (txn_impl.h lines 170-377)

The commit path claims an end LSN, seeds `sstamp` with the commit stamp,
runs the writer scan (raising `pstamp` from committed readers of the
overwritten versions) and the reader scan (lowering `sstamp` from
committed overwriters of the read versions), and then aborts iff the
exclusion check fails.  Both scans read remote state through the
owner-check/retry pattern; entries carry the settled observations, and
the context table is the shared `env`.  The post-commit stamp
installation (lines 342-377) follows a successful check and is outside
the validated claims. -/

/-- Modelled from the spec: `wait_for_commit_result` is declared in txn.h
but its body is not among the sources; the spec describes it as a
bounded spin on another txn's `state` until it leaves `COMMITTING`,
returning whether it committed.  On a settled context it returns whether
the state is `CMMTD`. -/
def wait_for_commit_result (xc : XidContext) : Bool :=
  xc.state = TxnState.cmmtd

/-- One reader-list slot processed by the writer scan (`get_reader`):
skip invalid (0) slots and the committer's own reads; fetch the reader's
context (a stale slot, whose settled context belongs to a different XID,
contributes nothing — the C++ re-reads the slot until it settles); if
the reader has pre-committed (`end ≠ 0`) with `end < cstamp` and
`wait_for_commit_result` reports committed, raise `pstamp` to its
`end`. -/
def scan_reader_slot (env : XidEnv) (xc_owner : XID) (cstamp : Nat)
    (pstamp : Nat) (rxid : XID) : Nat :=
  if rxid = 0 ∨ rxid = xc_owner then pstamp
  else
    match env rxid with
    | none => pstamp
    | some reader_xc =>
      if reader_xc.owner ≠ rxid then pstamp
      else if reader_xc.end_ ≠ 0 ∧ reader_xc.end_ < cstamp ∧
          wait_for_commit_result reader_xc = true then
        max pstamp reader_xc.end_
      else pstamp

/-- A write-set entry as seen by the commit path: `valid` is
`w.second.btr ≠ NULL` (false for superseded repeated overwrites),
`isInsert` means the overwritten tuple is the new tuple itself,
`ovClsn` is the overwritten tuple's `clsn` snapshot, `ovHolderEnd` the
settled `end` offset of the pre-committed overwriter context when
`ovClsn` is still an XID, and `readers` the XIDs read from the set bits
of the tuple's reader bitmap. -/
structure WriteEntry where
  valid : Bool
  isInsert : Bool
  ovClsn : Clsn
  ovHolderEnd : Nat
  readers : List XID
deriving DecidableEq, Repr

/-- The writer scan of `ssn_parallel_si_commit`: for each overwrite
(skipping invalid and insert entries) compute the overwritten version's
age; if young, fold the reader slots into `pstamp`; if old, set
`pstamp := cstamp - 1` and break out of the scan. -/
def ssn_writer_scan (env : XidEnv) (xc_owner : XID) (begin_ cstamp : Nat) :
    List WriteEntry → Nat → Nat
  | [], pstamp => pstamp
  | w :: ws, pstamp =>
    if ¬w.valid then ssn_writer_scan env xc_owner begin_ cstamp ws pstamp
    else if w.isInsert then ssn_writer_scan env xc_owner begin_ cstamp ws pstamp
    else
      let age : Int :=
        match w.ovClsn with
        | .xid _ => (begin_ : Int) - (w.ovHolderEnd : Int)
        | .log lsn => (begin_ : Int) - (lsn : Int)
      if age < OLD_VERSION_THRESHOLD then
        ssn_writer_scan env xc_owner begin_ cstamp ws
          (w.readers.foldl (scan_reader_slot env xc_owner cstamp) pstamp)
      else cstamp - 1

/-- The `clsn` tag of the overwriter found by `fetch_overwriter` during
the reader scan. -/
inductive OverwriterClsn
  | xid (x : XID)
  | log
deriving DecidableEq, Repr

/-- A read-set entry as seen by the commit path: `shadowed` is
`write_set[r.tuple].btr ≠ NULL` (the read is shadowed by a write and
skipped), `overwriter` the result of `fetch_overwriter` with its `clsn`
tag, and `tupleSstamp` the read tuple's `sstamp` at scan time. -/
structure ReadScanEntry where
  shadowed : Bool
  overwriter : Option OverwriterClsn
  tupleSstamp : Nat
deriving DecidableEq, Repr

/-- One step of the reader scan (`try_get_sucessor`): skip shadowed
reads and reads with no overwriter; an XID-tagged overwriter with a
missing context is skipped, the committer itself is skipped, a stale
context (settled under a different XID) contributes nothing, `end = 0`
(not in pre-commit) is skipped, `end > cstamp` (serialized after) is
skipped, and otherwise a committed overwriter lowers `sstamp` to its
`end`; a `LOG`-tagged overwriter lowers `sstamp` to the read tuple's
non-zero `sstamp`. -/
def ssn_reader_scan_step (env : XidEnv) (xc_owner : XID) (cstamp : Nat)
    (sstamp : Nat) (r : ReadScanEntry) : Nat :=
  if r.shadowed then sstamp
  else
    match r.overwriter with
    | none => sstamp
    | some (.xid successor_xid) =>
      match env successor_xid with
      | none => sstamp
      | some sucessor_xc =>
        if sucessor_xc.owner = xc_owner then sstamp
        else if sucessor_xc.owner ≠ successor_xid then sstamp
        else if sucessor_xc.end_ = 0 then sstamp
        else if sucessor_xc.end_ > cstamp then sstamp
        else if wait_for_commit_result sucessor_xc = true then
          min sstamp sucessor_xc.end_
        else sstamp
    | some .log =>
      if r.tupleSstamp ≠ 0 ∧ r.tupleSstamp < sstamp then r.tupleSstamp
      else sstamp

/-- The reader scan of `ssn_parallel_si_commit`. -/
def ssn_reader_scan (env : XidEnv) (xc_owner : XID) (cstamp : Nat)
    (read_set : List ReadScanEntry) (sstamp : Nat) : Nat :=
  read_set.foldl (ssn_reader_scan_step env xc_owner cstamp) sstamp

/-- Outcome of the SSN commit path, up to the exclusion decision:
`fatalAssert` models the `ALWAYS_ASSERT(false)` on a transaction that is
already resolved, `abortWith` models `signal_abort`, `committedAt`
carries the commit stamp and the final scan results with which the
transaction proceeds to `log->commit` and post-commit. -/
inductive CommitResult
  | fatalAssert
  | abortWith (reason : AbortReason)
  | committedAt (cstamp pstamp sstamp : Nat)
deriving DecidableEq, Repr

/-- Function `transaction::ssn_parallel_si_commit`: state switch, `pre_commit`
(the obtained end LSN is the input `end_lsn`; `INVALID_LSN` aborts with
`INTERNAL`), `sstamp` seeding with the commit stamp, writer scan, reader
scan, and the exclusion check. -/
def ssn_parallel_si_commit (env : XidEnv) (xc : XidContext) (end_lsn : Nat)
    (write_set : List WriteEntry) (read_set : List ReadScanEntry) :
    CommitResult :=
  match xc.state with
  | .cmmtd | .committing | .abrtd => .fatalAssert
  | .embryo | .active =>
    if end_lsn = INVALID_LSN then .abortWith .internal
    else
      let cstamp := end_lsn
      let sstamp0 := if xc.sstamp > cstamp then cstamp else xc.sstamp
      let pstamp1 :=
        ssn_writer_scan env xc.owner xc.begin_ cstamp write_set xc.pstamp
      let sstamp1 := ssn_reader_scan env xc.owner cstamp read_set sstamp0
      if ¬ssn_check_exclusion
          { xc with end_ := end_lsn, pstamp := pstamp1, sstamp := sstamp1 } then
        .abortWith .ssnExclusionFailure
      else
        .committedAt cstamp pstamp1 sstamp1

/-- C1.  A transaction reaching SSN commit validation with a valid end
LSN aborts with `SSN_EXCLUSION_FAILURE` iff, after the writer scan and
the reader scan, its `pstamp` is at least its `sstamp`; with
`pstamp < sstamp` it proceeds to commit. -/
theorem ssn_commit_exclusion_iff (env : XidEnv) (xc : XidContext)
    (end_lsn : Nat) (write_set : List WriteEntry)
    (read_set : List ReadScanEntry)
    (hstate : xc.state = TxnState.embryo ∨ xc.state = TxnState.active)
    (hend : end_lsn ≠ INVALID_LSN) :
    (ssn_parallel_si_commit env xc end_lsn write_set read_set =
        CommitResult.abortWith AbortReason.ssnExclusionFailure ↔
      ssn_writer_scan env xc.owner xc.begin_ end_lsn write_set xc.pstamp ≥
        ssn_reader_scan env xc.owner end_lsn read_set
          (if xc.sstamp > end_lsn then end_lsn else xc.sstamp)) ∧
    (ssn_writer_scan env xc.owner xc.begin_ end_lsn write_set xc.pstamp <
        ssn_reader_scan env xc.owner end_lsn read_set
          (if xc.sstamp > end_lsn then end_lsn else xc.sstamp) →
      ssn_parallel_si_commit env xc end_lsn write_set read_set =
        CommitResult.committedAt end_lsn
          (ssn_writer_scan env xc.owner xc.begin_ end_lsn write_set
            xc.pstamp)
          (ssn_reader_scan env xc.owner end_lsn read_set
            (if xc.sstamp > end_lsn then end_lsn else xc.sstamp))) := by
  unfold ssn_parallel_si_commit
  rcases hstate with hst | hst <;> rw [hst]
  all_goals
    dsimp only
    rw [if_neg hend]
    generalize ssn_writer_scan env xc.owner xc.begin_ end_lsn write_set
      xc.pstamp = p
    generalize ssn_reader_scan env xc.owner end_lsn read_set
      (if xc.sstamp > end_lsn then end_lsn else xc.sstamp) = s
    by_cases hc : p < s
    · rw [if_neg (by simp [ssn_check_exclusion, hc])]
      exact ⟨⟨fun hab => absurd hab (by simp),
        fun hge => absurd hge (by omega)⟩, fun _ => rfl⟩
    · rw [if_pos (by simp [ssn_check_exclusion, hc])]
      exact ⟨⟨fun _ => by omega, fun _ => rfl⟩, fun hlt => absurd hlt hc⟩

/-- Witness for C1: an empty-conflict commit at `cstamp = 5` with
`pstamp = 4 < sstamp = 5` proceeds to commit. -/
theorem ssn_commit_exclusion_iff_witness :
    ssn_parallel_si_commit
        (fun x => if x = 3 then some ⟨3, 0, 4, 0, 0, TxnState.cmmtd⟩
                  else none)
        ⟨7, 10, 0, 0, 18446744073709551615, TxnState.active⟩ 5
        [⟨true, false, Clsn.log 2, 0, [3]⟩]
        [⟨false, some OverwriterClsn.log, 0⟩] =
      CommitResult.committedAt 5 4 5 :=
  (ssn_commit_exclusion_iff
      (fun x => if x = 3 then some ⟨3, 0, 4, 0, 0, TxnState.cmmtd⟩
                else none)
      ⟨7, 10, 0, 0, 18446744073709551615, TxnState.active⟩ 5
      [⟨true, false, Clsn.log 2, 0, [3]⟩]
      [⟨false, some OverwriterClsn.log, 0⟩]
      (Or.inr rfl) (by decide)).2 (by decide)

/-! ## abort_impl (txn_impl.h lines 81-111)

Abort sets the context state to `ABRTD` (before the cleanup when the
transaction was not yet `COMMITTING`, after it otherwise — the final
state is `ABRTD` either way), unlinks the installed head of every
write-set entry that still has an index pointer, deregisters every
read-set entry from its tuple's reader list, and discards the log
intent.  Shared state is the set of version chains (per OID) and the
per-tuple reader lists. -/

/-- A write-set entry as seen by `abort_impl`: `valid` is
`w.second.btr ≠ NULL`, `oid` the entry's OID, `new_tuple` the installed
in-flight version (`w.second.new_tuple`). -/
structure AbortWriteEntry where
  valid : Bool
  oid : Nat
  new_tuple : Dbtuple
deriving DecidableEq, Repr

/-- One write-set entry processed by the abort loop: a valid entry
ditches the head of its OID's chain (`object_vector::unlink` CASes the
slot from the head to `head->_next`; on abort the head is the
transaction's own in-flight version). -/
def abort_unlink_step (cs : Nat → List Dbtuple) (w : AbortWriteEntry) :
    Nat → List Dbtuple :=
  if w.valid then Function.update cs w.oid (cs w.oid).tail else cs

/-- Modelled from the spec: `ssn_deregister_reader_tx` is called by
abort and post-commit but its body is not among the sources; the spec
says `deregister_reader(tuple)` clears the reader's bit in the tuple's
reader bitmap, removing that reader's registration. -/
def ssn_deregister_reader_tx (rl : List XID) (x : XID) : List XID :=
  rl.filter (fun r => r ≠ x)

/-- One read-set entry processed by the abort loop: remove the aborting
transaction from the tuple's reader list. -/
def abort_dereg_step (x : XID) (rl : Nat → List XID) (r : ReadRec) :
    Nat → List XID :=
  Function.update rl r.tupleId (ssn_deregister_reader_tx (rl r.tupleId) x)

/-- The shared state after `abort_impl`, plus the transaction's final
state and whether the log intent was discarded. -/
structure AbortResult where
  state : TxnState
  chains : Nat → List Dbtuple
  readerList : Nat → List XID
  logDiscarded : Bool

/-- Function `transaction::abort_impl`: set `ABRTD` (early unless already
`COMMITTING`, late otherwise — final state `ABRTD` regardless of the
entry state `st0`), unlink each valid write-set entry's head, deregister
each read-set entry, and `log->discard()`. -/
def abort_impl (x : XID) (st0 : TxnState) (chains : Nat → List Dbtuple)
    (readerList : Nat → List XID) (write_set : List AbortWriteEntry)
    (read_set : List ReadRec) : AbortResult :=
  let chains1 := write_set.foldl abort_unlink_step chains
  let rl1 := read_set.foldl (abort_dereg_step x) readerList
  { state := TxnState.abrtd, chains := chains1, readerList := rl1,
    logDiscarded := true }

/-- Unlink folds leave untouched every OID not written by a valid
entry. -/
theorem abort_unlink_untouched (ws : List AbortWriteEntry)
    (cs : Nat → List Dbtuple) (t : Nat)
    (h : ∀ w ∈ ws, w.valid = true → w.oid ≠ t) :
    ws.foldl abort_unlink_step cs t = cs t := by
  induction ws generalizing cs with
  | nil => rfl
  | cons w ws ih =>
    simp only [List.foldl_cons]
    rw [ih _ (fun w' hw' hv => h w' (List.mem_cons_of_mem _ hw') hv)]
    unfold abort_unlink_step
    by_cases hv : w.valid
    · rw [if_pos hv,
        Function.update_noteq (Ne.symm (h w (List.mem_cons_self w ws) hv))]
    · rw [if_neg hv]

/-- For a valid entry with an OID no other valid entry shares, the
unlink fold replaces that OID's chain by its tail. -/
theorem abort_unlink_tail (ws : List AbortWriteEntry)
    (cs : Nat → List Dbtuple) (w : AbortWriteEntry)
    (hw : w ∈ ws) (hv : w.valid = true)
    (hnodup : (List.map AbortWriteEntry.oid
      (ws.filter (fun w' => w'.valid))).Nodup) :
    ws.foldl abort_unlink_step cs w.oid = (cs w.oid).tail := by
  induction ws generalizing cs with
  | nil => cases hw
  | cons a ws ih =>
    simp only [List.filter_cons] at hnodup
    rcases List.mem_cons.mp hw with rfl | hmem
    · simp only [List.foldl_cons]
      rw [hv] at hnodup
      simp only [if_pos] at hnodup
      rw [List.map_cons, List.nodup_cons] at hnodup
      rw [abort_unlink_untouched ws _ w.oid ?undisturbed]
      · unfold abort_unlink_step
        rw [if_pos hv, Function.update_same]
      case undisturbed =>
        intro w' hw' hv'
        intro hcontra
        exact hnodup.1 (hcontra ▸
          List.mem_map_of_mem AbortWriteEntry.oid
            (List.mem_filter.mpr ⟨hw', by simp [hv']⟩))
    · simp only [List.foldl_cons]
      by_cases hav : a.valid
      · rw [hav] at hnodup
        simp only [if_pos] at hnodup
        rw [List.map_cons, List.nodup_cons] at hnodup
        have hne : a.oid ≠ w.oid := by
          intro hcontra
          exact hnodup.1 (hcontra ▸
            List.mem_map_of_mem AbortWriteEntry.oid
              (List.mem_filter.mpr ⟨hmem, by simp [hv]⟩))
        rw [ih _ hmem hnodup.2]
        unfold abort_unlink_step
        rw [if_pos hav, Function.update_noteq (Ne.symm hne)]
      · rw [if_neg hav] at hnodup
        rw [ih _ hmem hnodup]
        unfold abort_unlink_step
        rw [if_neg hav]

/-- After the deregistration fold, the aborting transaction is absent
from the reader list of every tuple in the read set (and from any list
it was already absent from). -/
theorem abort_dereg_not_mem (x : XID) (rs : List ReadRec)
    (rl : Nat → List XID) (t : Nat)
    (h : t ∈ rs.map ReadRec.tupleId ∨ x ∉ rl t) :
    x ∉ rs.foldl (abort_dereg_step x) rl t := by
  induction rs generalizing rl with
  | nil =>
    rcases h with h | h
    · simp at h
    · simpa using h
  | cons r rs ih =>
    simp only [List.foldl_cons]
    apply ih
    rcases h with h | h
    · simp only [List.map_cons, List.mem_cons] at h
      rcases h with rfl | h
      · right
        unfold abort_dereg_step
        rw [Function.update_same]
        simp [ssn_deregister_reader_tx]
      · left
        exact h
    · right
      unfold abort_dereg_step
      by_cases ht : t = r.tupleId
      · subst ht
        rw [Function.update_same]
        simp [ssn_deregister_reader_tx]
      · rw [Function.update_noteq ht]
        exact h

/-- C5.  Abort is transaction-scoped and complete: the final state is
`ABRTD`, the log intent is discarded, every valid write-set entry's
installed version is gone from its OID's chain (given that it was the
chain head, occurring only there, and valid entries write distinct
OIDs), every read-set tuple no longer lists the transaction as a reader,
and any leftover version still tagged with the aborted XID is skipped by
every other visitor's `fetch_step` once the context reads `ABRTD`. -/
theorem abort_impl_effects (x : XID) (st0 : TxnState)
    (chains : Nat → List Dbtuple) (readerList : Nat → List XID)
    (write_set : List AbortWriteEntry) (read_set : List ReadRec)
    (hnodup : (List.map AbortWriteEntry.oid
      (write_set.filter (fun w' => w'.valid))).Nodup)
    (hhead : ∀ w ∈ write_set, w.valid = true →
      (chains w.oid).head? = some w.new_tuple ∧
        w.new_tuple ∉ (chains w.oid).tail) :
    (abort_impl x st0 chains readerList write_set read_set).state =
      TxnState.abrtd ∧
    (abort_impl x st0 chains readerList write_set read_set).logDiscarded =
      true ∧
    (∀ w ∈ write_set, w.valid = true →
      w.new_tuple ∉
        (abort_impl x st0 chains readerList write_set read_set).chains
          w.oid) ∧
    (∀ r ∈ read_set,
      x ∉ (abort_impl x st0 chains readerList write_set read_set).readerList
            r.tupleId) ∧
    (∀ env visitor_xc v c, v.clsn = Clsn.xid x → env x = some c →
      c.owner = x → c.state = TxnState.abrtd → x ≠ visitor_xc.owner →
      fetch_step env visitor_xc v = FetchStep.skip) := by
  refine ⟨rfl, rfl, ?_, ?_, ?_⟩
  · intro w hw hv
    unfold abort_impl
    dsimp only
    rw [abort_unlink_tail write_set chains w hw hv hnodup]
    exact (hhead w hw hv).2
  · intro r hr
    unfold abort_impl
    dsimp only
    exact abort_dereg_not_mem x read_set readerList r.tupleId
      (Or.inl (List.mem_map_of_mem ReadRec.tupleId hr))
  · intro env visitor_xc v c hclsn henv howner hstate hne
    unfold fetch_step
    rw [hclsn]
    dsimp only
    rw [if_neg hne, henv]
    dsimp only
    rw [if_neg (by simp [howner]), if_pos (by simp [hstate])]

/-- Witness for C5: one write at OID 4 (head unlinked), one read of
tuple 9 (reader deregistered). -/
theorem abort_impl_effects_witness :
    (abort_impl 7 TxnState.active
        (fun o => if o = 4 then [⟨Clsn.xid 7, 0, 0, 30⟩, ⟨Clsn.log 2, 0, 0, 31⟩]
                  else [])
        (fun t => if t = 9 then [7, 8] else [])
        [⟨true, 4, ⟨Clsn.xid 7, 0, 0, 30⟩⟩] [⟨9, 4⟩]).state =
      TxnState.abrtd ∧
    (abort_impl 7 TxnState.active
        (fun o => if o = 4 then [⟨Clsn.xid 7, 0, 0, 30⟩, ⟨Clsn.log 2, 0, 0, 31⟩]
                  else [])
        (fun t => if t = 9 then [7, 8] else [])
        [⟨true, 4, ⟨Clsn.xid 7, 0, 0, 30⟩⟩] [⟨9, 4⟩]).logDiscarded = true ∧
    (∀ w ∈ [(⟨true, 4, ⟨Clsn.xid 7, 0, 0, 30⟩⟩ : AbortWriteEntry)],
      w.valid = true →
      w.new_tuple ∉
        (abort_impl 7 TxnState.active
          (fun o => if o = 4 then
              [⟨Clsn.xid 7, 0, 0, 30⟩, ⟨Clsn.log 2, 0, 0, 31⟩] else [])
          (fun t => if t = 9 then [7, 8] else [])
          [⟨true, 4, ⟨Clsn.xid 7, 0, 0, 30⟩⟩] [⟨9, 4⟩]).chains w.oid) ∧
    (∀ r ∈ [(⟨9, 4⟩ : ReadRec)],
      (7 : XID) ∉
        (abort_impl 7 TxnState.active
          (fun o => if o = 4 then
              [⟨Clsn.xid 7, 0, 0, 30⟩, ⟨Clsn.log 2, 0, 0, 31⟩] else [])
          (fun t => if t = 9 then [7, 8] else [])
          [⟨true, 4, ⟨Clsn.xid 7, 0, 0, 30⟩⟩] [⟨9, 4⟩]).readerList
          r.tupleId) ∧
    (∀ env visitor_xc v c, v.clsn = Clsn.xid 7 → env 7 = some c →
      c.owner = 7 → c.state = TxnState.abrtd → (7 : XID) ≠ visitor_xc.owner →
      fetch_step env visitor_xc v = FetchStep.skip) :=
  abort_impl_effects 7 TxnState.active
    (fun o => if o = 4 then [⟨Clsn.xid 7, 0, 0, 30⟩, ⟨Clsn.log 2, 0, 0, 31⟩]
              else [])
    (fun t => if t = 9 then [7, 8] else [])
    [⟨true, 4, ⟨Clsn.xid 7, 0, 0, 30⟩⟩] [⟨9, 4⟩] (by decide) (by decide)

/-! ## The OID allocator (object.h lines 139-157)

`alloc()` serves OIDs from a per-core window; an empty window fetches a
fresh extent of `OID_EXT_SIZE` OIDs from the global counter
(`alloc_oid_extent`, a fetch-and-add).  While a core serves the extent
starting at global offset 0 it decrements `remaining` an extra time per
call, skipping slots so that OID 0 (the empty-slot sentinel that the
CAS-from-0 `put` and `fetch_node` rely on) is never handed out.  The
counters are `uint64`, so decrements are modulo `2^64`; the returned
`oid_type` is the `uint64` expression truncated to 32 bits. -/

/-- Constant `OID_EXT_SIZE` from object.h. -/
def OID_EXT_SIZE : Nat := 8192

/-- The modulus of the allocator's `uint64` arithmetic. -/
def W64 : Nat := 18446744073709551616

/-- Unsigned 64-bit subtraction `a - b` (modulo `2^64`). -/
def sub64 (a b : Nat) : Nat :=
  (a + (W64 - b % W64)) % W64

/-- The allocator state: the global fetch-and-add counter and the
per-core `_core_oid_offset` / `_core_oid_remaining` windows. -/
structure AllocState where
  global : Nat
  offset : Nat → Nat
  remaining : Nat → Nat

/-- Function `object_vector::alloc()` executed by `core`:
* if `remaining == 0`, fetch a fresh extent (`offset := old global`,
  `global += OID_EXT_SIZE`, `remaining := OID_EXT_SIZE`);
* if `offset == 0`, decrement `remaining` once (the skip that protects
  OID 0);
* return `offset + OID_EXT_SIZE - remaining` (post-decrementing
  `remaining`), truncated to 32 bits. -/
def alloc (s : AllocState) (core : Nat) : Nat × AllocState :=
  if s.remaining core = 0 then
    let off := s.global
    let rem2 := if off = 0 then sub64 OID_EXT_SIZE 1 else OID_EXT_SIZE
    (sub64 (off + OID_EXT_SIZE) rem2 % 4294967296,
     { global := (s.global + OID_EXT_SIZE) % W64,
       offset := Function.update s.offset core off,
       remaining := Function.update s.remaining core (sub64 rem2 1) })
  else
    let off := s.offset core
    let rem2 := if off = 0 then sub64 (s.remaining core) 1
                else s.remaining core
    (sub64 (off + OID_EXT_SIZE) rem2 % 4294967296,
     { global := s.global,
       offset := s.offset,
       remaining := Function.update s.remaining core (sub64 rem2 1) })

/-- A sequence of `alloc()` calls, by the listed cores, collecting the
returned OIDs in order. -/
def alloc_run (s : AllocState) : List Nat → List Nat × AllocState
  | [] => ([], s)
  | c :: cs =>
    let r := alloc s c
    let rest := alloc_run r.2 cs
    (r.1 :: rest.1, rest.2)

/-- The initial allocator state: global counter 0, all windows empty. -/
def alloc_init : AllocState :=
  { global := 0, offset := fun _ => 0, remaining := fun _ => 0 }

theorem sub64_small (a b : Nat) (hb : b ≤ a) (ha : a < W64) :
    sub64 a b = a - b := by
  simp only [sub64, W64] at *
  omega

/-- The allocator invariant, relative to the list `R` of OIDs returned
so far: the global counter is extent-aligned; windows hold at most one
extent; an active window's extent is aligned and fully below the global
counter; the zero-extent window always holds an even count (each call
consumes two slots there); active windows have distinct extents; every
returned OID is non-zero and below the global counter; no returned OID
lies in an active window's unserved region
`[offset + OID_EXT_SIZE - remaining, offset + OID_EXT_SIZE)`; and the
returned OIDs are distinct. -/
def GoodAlloc (s : AllocState) (R : List Nat) : Prop :=
  s.global % OID_EXT_SIZE = 0 ∧
  (∀ c, s.remaining c ≤ OID_EXT_SIZE) ∧
  (∀ c, s.remaining c ≠ 0 →
    s.offset c % OID_EXT_SIZE = 0 ∧
      s.offset c + OID_EXT_SIZE ≤ s.global) ∧
  (∀ c, s.offset c = 0 → s.remaining c % 2 = 0) ∧
  (∀ c d, c ≠ d → s.remaining c ≠ 0 → s.remaining d ≠ 0 →
    s.offset c ≠ s.offset d) ∧
  (∀ r ∈ R, 0 < r ∧ r < s.global) ∧
  (∀ r ∈ R, ∀ c, s.remaining c ≠ 0 →
    r < s.offset c + OID_EXT_SIZE - s.remaining c ∨
      s.offset c + OID_EXT_SIZE ≤ r) ∧
  R.Nodup



/-- One `alloc()` call preserves the invariant (prepending the returned
OID) and advances the global counter by at most one extent, provided the
counter has room for one more extent below `2^32`. -/
theorem alloc_step_good (s : AllocState) (R : List Nat) (core : Nat)
    (hg : GoodAlloc s R) (hbound : s.global + OID_EXT_SIZE ≤ 4294967296) :
    (alloc s core).2.global ≤ s.global + OID_EXT_SIZE ∧
    GoodAlloc (alloc s core).2 ((alloc s core).1 :: R) := by
  obtain ⟨ha, hb, hc, hd, he, hf, hreg, hnd⟩ := hg
  simp only [OID_EXT_SIZE] at *
  by_cases h0 : s.remaining core = 0
  · by_cases hz : s.global = 0
    · -- refill of the zero extent
      have hnoact : ∀ c, s.remaining c = 0 := by
        intro c
        by_contra hcon
        have := (hc c hcon).2
        omega
      have hR : ∀ r ∈ R, False := by
        intro r hr
        have := (hf r hr).2
        omega
      have halloc : alloc s core =
          (1, { global := 8192,
                offset := Function.update s.offset core 0,
                remaining := Function.update s.remaining core 8190 }) := by
        unfold alloc
        rw [if_pos h0]
        dsimp only
        rw [hz]
        norm_num [sub64, W64, OID_EXT_SIZE]
      rw [halloc]
      unfold GoodAlloc
      dsimp only
      simp only [OID_EXT_SIZE]
      refine ⟨by omega, by trivial, ?_, ?_, ?_, ?_, ?_, ?_, ?_⟩
      · intro c
        by_cases hcc : core = c
        · subst hcc
          rw [Function.update_same]
          omega
        · have hcc' : c ≠ core := fun h => hcc h.symm
          rw [Function.update_noteq hcc']
          exact hb c
      · intro c hrc
        by_cases hcc : core = c
        · subst hcc
          rw [Function.update_same]
          omega
        · have hcc' : c ≠ core := fun h => hcc h.symm
          rw [Function.update_noteq hcc'] at hrc
          exact absurd (hnoact c) hrc
      · intro c hoc
        by_cases hcc : core = c
        · subst hcc
          rw [Function.update_same]
        · have hcc' : c ≠ core := fun h => hcc h.symm
          rw [Function.update_noteq hcc']
          rw [hnoact c]
      · intro c d hcd hrc hrd
        by_cases hcc : core = c
        · subst hcc
          rw [Function.update_noteq (Ne.symm hcd)] at hrd
          exact absurd (hnoact d) hrd
        · have hcc' : c ≠ core := fun h => hcc h.symm
          rw [Function.update_noteq hcc'] at hrc
          exact absurd (hnoact c) hrc
      · intro r hr
        rcases List.mem_cons.mp hr with rfl | hr
        · omega
        · exact (hR r hr).elim
      · intro r hr c hrc
        rcases List.mem_cons.mp hr with rfl | hr
        · by_cases hcc : core = c
          · subst hcc
            rw [Function.update_same, Function.update_same]
            omega
          · have hcc' : c ≠ core := fun h => hcc h.symm
            rw [Function.update_noteq hcc'] at hrc
            exact absurd (hnoact c) hrc
        · exact (hR r hr).elim
      · exact List.nodup_cons.mpr ⟨fun h => hR 1 h, hnd⟩
    · -- refill of a later extent
      have hg32 : s.global < 4294967296 := by omega
      have h1 : sub64 (s.global + 8192) 8192 = s.global := by
        rw [sub64_small _ _ (by omega) (by simp only [W64]; omega)]
        omega
      have h4 : sub64 8192 1 = 8191 := by
        norm_num [sub64, W64]
      have h3 : (s.global + 8192) % W64 = s.global + 8192 :=
        Nat.mod_eq_of_lt (by simp only [W64]; omega)
      have halloc : alloc s core =
          (s.global,
           { global := s.global + 8192,
             offset := Function.update s.offset core s.global,
             remaining := Function.update s.remaining core 8191 }) := by
        unfold alloc
        rw [if_pos h0]
        dsimp only
        rw [if_neg hz]
        simp only [OID_EXT_SIZE]
        rw [h1, h3, h4, Nat.mod_eq_of_lt hg32]
      rw [halloc]
      unfold GoodAlloc
      dsimp only
      simp only [OID_EXT_SIZE]
      refine ⟨by omega, by omega, ?_, ?_, ?_, ?_, ?_, ?_, ?_⟩
      · intro c
        by_cases hcc : core = c
        · subst hcc
          rw [Function.update_same]
          omega
        · have hcc' : c ≠ core := fun h => hcc h.symm
          rw [Function.update_noteq hcc']
          exact hb c
      · intro c hrc
        by_cases hcc : core = c
        · subst hcc
          rw [Function.update_same]
          omega
        · have hcc' : c ≠ core := fun h => hcc h.symm
          rw [Function.update_noteq hcc'] at hrc
          rw [Function.update_noteq hcc']
          have := hc c hrc
          omega
      · intro c hoc
        by_cases hcc : core = c
        · subst hcc
          rw [Function.update_same] at hoc
          exact absurd hoc hz
        · have hcc' : c ≠ core := fun h => hcc h.symm
          rw [Function.update_noteq hcc'] at hoc
          rw [Function.update_noteq hcc']
          exact hd c hoc
      · intro c d hcd hrc hrd
        by_cases hcc : core = c
        · subst hcc
          rw [Function.update_noteq (Ne.symm hcd)] at hrd
          rw [Function.update_same, Function.update_noteq (Ne.symm hcd)]
          have := (hc d hrd).2
          omega
        · have hcc' : c ≠ core := fun h => hcc h.symm
          rw [Function.update_noteq hcc'] at hrc
          rw [Function.update_noteq hcc']
          by_cases hdd : core = d
          · subst hdd
            rw [Function.update_same]
            have := (hc c hrc).2
            omega
          · have hdd' : d ≠ core := fun h => hdd h.symm
            rw [Function.update_noteq hdd'] at hrd
            rw [Function.update_noteq hdd']
            exact he c d hcd hrc hrd
      · intro r hr
        rcases List.mem_cons.mp hr with rfl | hr
        · omega
        · have := hf r hr
          omega
      · intro r hr c hrc
        by_cases hcc : core = c
        · subst hcc
          rw [Function.update_same] at hrc
          rw [Function.update_same, Function.update_same]
          rcases List.mem_cons.mp hr with rfl | hr
          · omega
          · have := (hf r hr).2
            omega
        · have hcc' : c ≠ core := fun h => hcc h.symm
          rw [Function.update_noteq hcc'] at hrc
          rw [Function.update_noteq hcc', Function.update_noteq hcc']
          rcases List.mem_cons.mp hr with rfl | hr
          · have := (hc c hrc).2
            omega
          · exact hreg r hr c hrc
      · refine List.nodup_cons.mpr ⟨?_, hnd⟩
        intro hmem
        have := (hf _ hmem).2
        omega
  · -- serving from the current window
    have hrle := hb core
    by_cases hz : s.offset core = 0
    · -- the zero extent: double decrement
      have heven := hd core hz
      have h2le : 2 ≤ s.remaining core := by omega
      have hgge : 8192 ≤ s.global := by
        have := (hc core h0).2
        omega
      have e1 : sub64 (s.remaining core) 1 = s.remaining core - 1 :=
        sub64_small _ _ (by omega) (by simp only [W64]; omega)
      have e2 : sub64 (s.remaining core - 1) 1 = s.remaining core - 2 :=
        sub64_small _ _ (by omega) (by simp only [W64]; omega)
      have e3 : sub64 (0 + 8192) (s.remaining core - 1) =
          8193 - s.remaining core := by
        rw [sub64_small _ _ (by omega) (by simp only [W64]; omega)]
        omega
      have halloc : alloc s core =
          (8193 - s.remaining core,
           { global := s.global,
             offset := s.offset,
             remaining := Function.update s.remaining core
               (s.remaining core - 2) }) := by
        unfold alloc
        rw [if_neg h0]
        dsimp only
        rw [if_pos hz]
        simp only [OID_EXT_SIZE]
        rw [hz, e1, e3, e2, Nat.mod_eq_of_lt (by omega)]
      rw [halloc]
      unfold GoodAlloc
      dsimp only
      simp only [OID_EXT_SIZE]
      refine ⟨by omega, ha, ?_, ?_, ?_, ?_, ?_, ?_, ?_⟩
      · intro c
        by_cases hcc : core = c
        · subst hcc
          rw [Function.update_same]
          omega
        · have hcc' : c ≠ core := fun h => hcc h.symm
          rw [Function.update_noteq hcc']
          exact hb c
      · intro c hrc
        by_cases hcc : core = c
        · subst hcc
          exact hc core h0
        · have hcc' : c ≠ core := fun h => hcc h.symm
          rw [Function.update_noteq hcc'] at hrc
          exact hc c hrc
      · intro c hoc
        by_cases hcc : core = c
        · subst hcc
          rw [Function.update_same]
          omega
        · have hcc' : c ≠ core := fun h => hcc h.symm
          rw [Function.update_noteq hcc']
          exact hd c hoc
      · intro c d hcd hrc hrd
        have hrc' : s.remaining c ≠ 0 := by
          by_cases hcc : core = c
          · rw [← hcc]
            exact h0
          · have hcc' : c ≠ core := fun h => hcc h.symm
            rwa [Function.update_noteq hcc'] at hrc
        have hrd' : s.remaining d ≠ 0 := by
          by_cases hdd : core = d
          · rw [← hdd]
            exact h0
          · have hdd' : d ≠ core := fun h => hdd h.symm
            rwa [Function.update_noteq hdd'] at hrd
        exact he c d hcd hrc' hrd'
      · intro r hr
        rcases List.mem_cons.mp hr with rfl | hr
        · omega
        · exact hf r hr
      · intro r hr c hrc
        by_cases hcc : core = c
        · subst hcc
          rw [Function.update_same] at hrc
          rw [Function.update_same, hz]
          rcases List.mem_cons.mp hr with rfl | hr
          · omega
          · have := hreg r hr core h0
            rw [hz] at this
            omega
        · have hcc' : c ≠ core := fun h => hcc h.symm
          rw [Function.update_noteq hcc'] at hrc
          rw [Function.update_noteq hcc']
          rcases List.mem_cons.mp hr with rfl | hr
          · have hcoff := hc c hrc
            have hoffne : s.offset c ≠ s.offset core := he c core hcc' hrc h0
            have hbc := hb c
            rw [hz] at hoffne
            omega
          · exact hreg r hr c hrc
      · refine List.nodup_cons.mpr ⟨?_, hnd⟩
        intro hmem
        have := hreg _ hmem core h0
        rw [hz] at this
        omega
    · -- a non-zero extent: single decrement
      have hgge : s.offset core + 8192 ≤ s.global := (hc core h0).2
      have halign := (hc core h0).1
      have e3 : sub64 (s.offset core + 8192) (s.remaining core) =
          s.offset core + 8192 - s.remaining core := by
        rw [sub64_small _ _ (by omega) (by simp only [W64]; omega)]
      have e2 : sub64 (s.remaining core) 1 = s.remaining core - 1 :=
        sub64_small _ _ (by omega) (by simp only [W64]; omega)
      have halloc : alloc s core =
          (s.offset core + 8192 - s.remaining core,
           { global := s.global,
             offset := s.offset,
             remaining := Function.update s.remaining core
               (s.remaining core - 1) }) := by
        unfold alloc
        rw [if_neg h0]
        dsimp only
        rw [if_neg hz]
        simp only [OID_EXT_SIZE]
        rw [e3, e2, Nat.mod_eq_of_lt (by omega)]
      rw [halloc]
      unfold GoodAlloc
      dsimp only
      simp only [OID_EXT_SIZE]
      refine ⟨by omega, ha, ?_, ?_, ?_, ?_, ?_, ?_, ?_⟩
      · intro c
        by_cases hcc : core = c
        · subst hcc
          rw [Function.update_same]
          omega
        · have hcc' : c ≠ core := fun h => hcc h.symm
          rw [Function.update_noteq hcc']
          exact hb c
      · intro c hrc
        by_cases hcc : core = c
        · subst hcc
          exact hc core h0
        · have hcc' : c ≠ core := fun h => hcc h.symm
          rw [Function.update_noteq hcc'] at hrc
          exact hc c hrc
      · intro c hoc
        by_cases hcc : core = c
        · subst hcc
          exact absurd hoc hz
        · have hcc' : c ≠ core := fun h => hcc h.symm
          rw [Function.update_noteq hcc']
          exact hd c hoc
      · intro c d hcd hrc hrd
        have hrc' : s.remaining c ≠ 0 := by
          by_cases hcc : core = c
          · rw [← hcc]
            exact h0
          · have hcc' : c ≠ core := fun h => hcc h.symm
            rwa [Function.update_noteq hcc'] at hrc
        have hrd' : s.remaining d ≠ 0 := by
          by_cases hdd : core = d
          · rw [← hdd]
            exact h0
          · have hdd' : d ≠ core := fun h => hdd h.symm
            rwa [Function.update_noteq hdd'] at hrd
        exact he c d hcd hrc' hrd'
      · intro r hr
        rcases List.mem_cons.mp hr with rfl | hr
        · constructor <;> omega
        · exact hf r hr
      · intro r hr c hrc
        by_cases hcc : core = c
        · subst hcc
          rw [Function.update_same] at hrc
          rw [Function.update_same]
          rcases List.mem_cons.mp hr with rfl | hr
          · omega
          · have := hreg r hr core h0
            omega
        · have hcc' : c ≠ core := fun h => hcc h.symm
          rw [Function.update_noteq hcc'] at hrc
          rw [Function.update_noteq hcc']
          rcases List.mem_cons.mp hr with rfl | hr
          · have hcoff := hc c hrc
            have hoffne : s.offset c ≠ s.offset core := he c core hcc' hrc h0
            have hbc := hb c
            omega
          · exact hreg r hr c hrc
      · refine List.nodup_cons.mpr ⟨?_, hnd⟩
        intro hmem
        have := hreg _ hmem core h0
        omega

/-- Running a sequence of `alloc()` calls preserves the invariant,
accumulating the returned OIDs. -/
theorem alloc_run_good (cs : List Nat) (s : AllocState) (R : List Nat)
    (hg : GoodAlloc s R)
    (hbound : s.global + OID_EXT_SIZE * cs.length ≤ 4294967296) :
    GoodAlloc (alloc_run s cs).2 ((alloc_run s cs).1.reverse ++ R) := by
  induction cs generalizing s R with
  | nil => simpa using hg
  | cons c cs ih =>
    simp only [OID_EXT_SIZE, List.length_cons] at hbound
    have hstep := alloc_step_good s R c hg
      (by simp only [OID_EXT_SIZE]; omega)
    have hrec := ih (alloc s c).2 ((alloc s c).1 :: R) hstep.2
      (by
        have h1 := hstep.1
        simp only [OID_EXT_SIZE] at h1 ⊢
        omega)
    unfold alloc_run
    dsimp only
    simpa [List.reverse_cons, List.append_assoc] using hrec

/-- C10.  For every sequence of `alloc()` calls from the initial state
(within the 32-bit OID space: at most `2^19` calls, each consuming at
most one extent of `2^13` OIDs), every returned OID is non-zero and no
two calls return the same OID: the core serving the extent at global
offset 0 skips slots so that OID 0 — the empty-slot sentinel relied on
by the CAS-from-0 insert `ov_put_insert` and by `fetch_node` — is never
handed out. -/
theorem alloc_oids_nonzero_and_distinct (cs : List Nat)
    (hlen : cs.length ≤ 524288) :
    (∀ r ∈ (alloc_run alloc_init cs).1, r ≠ 0) ∧
    (alloc_run alloc_init cs).1.Nodup := by
  have hinit : GoodAlloc alloc_init [] :=
    ⟨rfl, fun _ => Nat.zero_le _, fun _ hc => absurd rfl hc,
      fun _ _ => rfl, fun _ _ _ hc _ => absurd rfl hc,
      fun r hr => absurd hr (List.not_mem_nil r),
      fun r hr => absurd hr (List.not_mem_nil r), List.nodup_nil⟩
  have hrun := alloc_run_good cs alloc_init [] hinit
    (by
      show (0 : Nat) + OID_EXT_SIZE * cs.length ≤ 4294967296
      simp only [OID_EXT_SIZE]
      omega)
  obtain ⟨-, -, -, -, -, hf, -, hnd⟩ := hrun
  constructor
  · intro r hr
    have hmem : r ∈ (alloc_run alloc_init cs).1.reverse ++ [] := by
      rw [List.append_nil]
      exact List.mem_reverse.mpr hr
    have := hf r hmem
    omega
  · rw [List.append_nil] at hnd
    exact List.nodup_reverse.mp hnd

/-- Witness for C10: three calls, two cores; the zero-extent core
returns 1 then 3 (skipping 0 and 2), the second core's fresh extent
starts at 8192. -/
theorem alloc_oids_nonzero_and_distinct_witness :
    (∀ r ∈ (alloc_run alloc_init [0, 0, 1]).1, r ≠ 0) ∧
    (alloc_run alloc_init [0, 0, 1]).1.Nodup :=
  alloc_oids_nonzero_and_distinct [0, 0, 1] (by decide)

end Ermia
